import Mathlib

/-!
Shallow embedding of `run.py` (`IndependentLegacyDataLoader`): coordinate
validation, per-band value transforms, record emission, batch accumulation
with flushes to the ingestion procedure, and the per-data-type file loop.
Raw raster values and coordinates are modelled with exact rationals; the
`astype(np.float32)` narrowing is modelled as the identity.
-/

/-- Result of Python `float(x)` on a registry field: NaN, ±inf, or a finite value. -/
inductive PyFloat where
  | nan : PyFloat
  | inf : PyFloat
  | ninf : PyFloat
  | fin : ℚ → PyFloat
deriving DecidableEq, Repr

/-- A raw latitude/longitude field as it comes out of the tower registry:
`null` makes `float()` raise `TypeError`, `unparseable` makes it raise
`ValueError`, the rest parse to the corresponding `PyFloat`. -/
inductive RawCoord where
  | null : RawCoord
  | unparseable : RawCoord
  | nanVal : RawCoord
  | infVal : RawCoord
  | ninfVal : RawCoord
  | fin : ℚ → RawCoord
deriving DecidableEq, Repr

/-- `float(x)`: `none` models a raised `TypeError`/`ValueError`. -/
def parseFloat : RawCoord → Option PyFloat
  | .null => none
  | .unparseable => none
  | .nanVal => some .nan
  | .infVal => some .inf
  | .ninfVal => some .ninf
  | .fin q => some (.fin q)

/-- `np.isnan`. -/
def isnan : PyFloat → Bool
  | .nan => true
  | _ => false

/-- Python `<=` on floats: every comparison against NaN is false. -/
def pyLe : PyFloat → PyFloat → Bool
  | .nan, _ => false
  | _, .nan => false
  | .ninf, _ => true
  | _, .ninf => false
  | _, .inf => true
  | .inf, _ => false
  | .fin a, .fin b => decide (a ≤ b)

/-- The validity test of `run.py` lines 60–61:
`not isnan(lon) and not isnan(lat) and -90 <= lat <= 90 and -180 <= lon <= 180`. -/
def coordCheck (lon lat : PyFloat) : Bool :=
  !(isnan lon) && !(isnan lat) &&
    pyLe (.fin (-90)) lat && pyLe lat (.fin 90) &&
    pyLe (.fin (-180)) lon && pyLe lon (.fin 180)

/-- A row of the `teias_towers` query: `(tower_serial, mid_latitude, mid_longitude)`. -/
structure Pole where
  serial : ℕ
  lat : RawCoord
  lon : RawCoord
deriving DecidableEq, Repr

/-- One iteration of the loop body of `get_valid_coordinates`: the pole is kept
iff both `float(pole[2])` and `float(pole[1])` succeed and `coordCheck` passes
(a raised `ValueError`/`TypeError` lands in the `except` arm). -/
def poleValid (p : Pole) : Bool :=
  match parseFloat p.lon, parseFloat p.lat with
  | some lonv, some latv => coordCheck lonv latv
  | _, _ => false

/-- The `(lon, lat)` pair appended to `valid_coords`; only evaluated on valid
poles, where both parses succeed. -/
def poleCoord (p : Pole) : PyFloat × PyFloat :=
  ((parseFloat p.lon).getD .nan, (parseFloat p.lat).getD .nan)

/-- The accumulation loop of `get_valid_coordinates` over an already-sorted
pole list, building `valid_poles` and `valid_coords` in input order. -/
def collectValid : List Pole → List Pole × List (PyFloat × PyFloat)
  | [] => ([], [])
  | p :: rest =>
    let r := collectValid rest
    if poleValid p then (p :: r.1, poleCoord p :: r.2) else r

/-- `get_valid_coordinates` (`run.py` lines 44–73): sort by serial
(`sorted(poles, key=lambda x: x[0])`), then filter to valid coordinates. -/
def get_valid_coordinates (poles : List Pole) : List Pole × List (PyFloat × PyFloat) :=
  collectValid (poles.mergeSort (fun a b => decide (a.serial ≤ b.serial)))

/-- `np.mod` on exact numbers: `x - y * ⌊x / y⌋` (sign follows the divisor). -/
def fmod (x y : ℚ) : ℚ := x - y * ⌊x / y⌋

/-- The `lambda x: (x * 0.1).astype(np.float32)` calculator (scale only). -/
def scale_calc (x : ℚ) : ℚ := x * 0.1

/-- The `wind_direction` calculator:
`np.mod((x * 0.1 + 180), 360).astype(np.float32)`. -/
def wind_direction_calc (x : ℚ) : ℚ := fmod (x * 0.1 + 180) 360

/-- `self.value_calculators` (`run.py` lines 36–42); `none` models the
`KeyError` a lookup of an unregistered data type raises. -/
def value_calculators : String → Option (ℚ → ℚ)
  | "wind_speed" => some scale_calc
  | "wind_gust" => some scale_calc
  | "wind_direction" => some wind_direction_calc
  | "ice_mass" => some scale_calc
  | "ice_thickness" => some scale_calc
  | _ => none

/-- `self.data_procedures` (`run.py` lines 27–33); `.get` returns `none` for
an unregistered data type. -/
def data_procedures : String → Option String
  | "wind_speed" => some "process_wind_speed_data"
  | "wind_gust" => some "process_wind_gust_data"
  | "wind_direction" => some "process_wind_direction_data"
  | "ice_mass" => some "process_ice_mass_data"
  | "ice_thickness" => some "process_ice_thickness_data"
  | _ => none

/-- One element of `batch_data` (`run.py` lines 150–156). -/
structure Record where
  tower_serial : ℕ
  file_name : String
  band : ℕ
  band_time : String
  value : ℚ
deriving DecidableEq, Repr

/-- The observable content of an opened raster: declared band count, per-band
descriptions, the pixel grid (`all_band_data[b][row, col]`) and the
georeferencing index map (`src.index(lon, lat)`). -/
structure Raster where
  count : ℕ
  descriptions : List String
  pix : ℕ → ℕ × ℕ → ℚ
  index : PyFloat × PyFloat → ℕ × ℕ

/-- `band_count = min(src.count, 48)` (`run.py` line 118). -/
def band_count (src : Raster) : ℕ := min src.count 48

/-- The records appended for one band (`run.py` lines 137–157): raw values at
the resolved pixels of `valid_coords`, transformed by the calculator, one
record per valid pole in pole order. -/
def bandRecords (calcf : ℚ → ℚ) (file_name : String) (src : Raster)
    (valid_poles : List Pole) (valid_coords : List (PyFloat × PyFloat))
    (band_index : ℕ) : List Record :=
  let band_num := band_index + 1
  let band_time := src.descriptions.getD band_index ""
  let raw_values := valid_coords.map (fun c => src.pix band_index (src.index c))
  let calculated_values := raw_values.map calcf
  (valid_poles.zip calculated_values).map (fun pv =>
    { tower_serial := pv.1.serial, file_name := file_name, band := band_num,
      band_time := band_time, value := pv.2 })

/-- The full record stream a file emits: bands `0, …, band_count-1` in
ascending order, each contributing its `bandRecords`. -/
def emittedRecords (calcf : ℚ → ℚ) (file_name : String) (src : Raster)
    (valid_poles : List Pole) (valid_coords : List (PyFloat × PyFloat)) : List Record :=
  (List.range (band_count src)).flatMap (bandRecords calcf file_name src valid_poles valid_coords)

/-- One append followed by the size check of `run.py` lines 150–169: the state
is `(flushes so far, current batch)`; when the batch reaches 100,000 records
and a procedure is registered, the batch is written and reset, otherwise
nothing further happens (in particular, with no procedure the batch is neither
written nor reset). -/
def batchStep (proc : Option String) (st : List (List Record) × List Record)
    (r : Record) : List (List Record) × List Record :=
  let batch := st.2 ++ [r]
  if 100000 ≤ batch.length then
    match proc with
    | some _ => (st.1 ++ [batch], [])
    | none => (st.1, batch)
  else (st.1, batch)

/-- The batching state after the band loop has appended every record. -/
def midFlushState (proc : Option String) (records : List Record) :
    List (List Record) × List Record :=
  records.foldl (batchStep proc) ([], [])

/-- The end-of-file handling of `run.py` lines 171–181: a non-empty remaining
batch is written when a procedure is registered, and otherwise dropped with a
warning (`İşlem prosedürü bulunamadı`); returns (all writes, warning fired). -/
def endOfFileResult (proc : Option String) (st : List (List Record) × List Record) :
    List (List Record) × Bool :=
  if st.2.isEmpty then (st.1, false)
  else
    match proc with
    | some _ => (st.1 ++ [st.2], false)
    | none => (st.1, true)

/-- Every batch the file hands to `cur.execute(CALL …)`, in order. -/
def allFlushes (proc : Option String) (records : List Record) : List (List Record) :=
  (endOfFileResult proc (midFlushState proc records)).1

/-- Whether the missing-procedure warning is printed for this file. -/
def procWarning (proc : Option String) (records : List Record) : Bool :=
  (endOfFileResult proc (midFlushState proc records)).2

/-- Runs the ingestion calls in order against an oracle `ing` telling which
call succeeds: returns the committed prefix and whether all calls succeeded.
Each successful call is committed immediately (`conn.commit()`), so a later
failure leaves the prefix persisted. -/
def runCalls (ing : ℕ → Bool) : ℕ → List (List Record) → List (List Record) × Bool
  | _, [] => ([], true)
  | i, b :: rest =>
    if ing i then
      let r := runCalls ing (i + 1) rest
      (b :: r.1, r.2)
    else ([], false)

/-- Outcome of `process_tiff_file` for one file: `coordError` is the caught
coordinate-conversion failure of lines 121–127 (logged, returns `False`);
`raised` is an exception escaping through the `except`/`raise` of lines
189–193, carrying the batches already committed; `success` carries the
committed batches and whether the missing-procedure warning fired. -/
inductive ProcResult where
  | coordError : ProcResult
  | raised : List (List Record) → ProcResult
  | success : List (List Record) → Bool → ProcResult
deriving DecidableEq, Repr

/-- `process_tiff_file` (`run.py` lines 75–193). `parseTime` models
`datetime.strptime(desc, "%Y-%m-%d_%H")` (`none` = raises); `ing` models
whether the i-th ingestion call of this file succeeds. An empty
`valid_coords` makes `rows, cols = zip(*[])` raise, which lines 125–127 catch
and turn into `coordError`; an unregistered data type raises `KeyError` at
`self.value_calculators[data_type]` on the first band, before any append. -/
def process_tiff_file (parseTime : String → Option String) (ing : ℕ → Bool)
    (data_type file_name : String) (src : Raster) (towers : List Pole) : ProcResult :=
  let vp := (get_valid_coordinates towers).1
  let vc := (get_valid_coordinates towers).2
  match src.descriptions with
  | [] => .raised []
  | d0 :: _ =>
    match parseTime d0 with
    | none => .raised []
    | some _ =>
      if vc.length = 0 then .coordError
      else
        match value_calculators data_type with
        | none => if band_count src = 0 then .success [] false else .raised []
        | some calcf =>
          let records := emittedRecords calcf file_name src vp vc
          let proc := data_procedures data_type
          let eofr := endOfFileResult proc (midFlushState proc records)
          let rc := runCalls ing 0 eofr.1
          if rc.2 then .success rc.1 eofr.2 else .raised rc.1

/-- The file loop of `load_legacy_data` (`run.py` lines 216–217) together with
its surrounding `try`: `process_tiff_file` re-raises any exception, the
`except` sits outside the loop, so the first raising file ends the loop (its
exception is caught and logged there, and the function returns normally). -/
def load_loop (step : String → ProcResult) : List String → List (String × ProcResult)
  | [] => []
  | f :: rest =>
    match step f with
    | .raised c => [(f, .raised c)]
    | r => (f, r) :: load_loop step rest

/-- `load_legacy_data` for a discovered file list: `sorted(tiff_files)` then
the loop. -/
def load_legacy_data (step : String → ProcResult) (files : List String) :
    List (String × ProcResult) :=
  load_loop step (files.mergeSort (fun a b => decide (a ≤ b)))

/-- A concrete record used by concrete batching runs. -/
def r0 : Record := { tower_serial := 1, file_name := "f", band := 1, band_time := "t", value := 0 }

/-- A concrete raster declaring 8 bands. -/
def src8 : Raster :=
  { count := 8, descriptions := ["2020-01-01_00"], pix := fun _ _ => 0, index := fun _ => (0, 0) }

/-- Scenario A pole with valid coordinates. -/
def pole1 : Pole := { serial := 1, lat := .fin 40, lon := .fin 29 }

/-- Scenario A pole with out-of-range latitude. -/
def pole2 : Pole := { serial := 2, lat := .fin 95, lon := .fin 10 }

/-- Scenario A pole with a null latitude. -/
def pole3 : Pole := { serial := 3, lat := .null, lon := .fin 30 }

/-- A concrete per-file step where file "a" raises. -/
def stepA : String → ProcResult :=
  fun s => if s = "a" then .raised [] else .success [] false

/-- A concrete per-file step where file "b" raises after committing one batch. -/
def stepB : String → ProcResult :=
  fun s => if s = "b" then .raised [[r0]] else .success [] false

theorem fmod_eq_mul_fract (x y : ℚ) (hy : y ≠ 0) : fmod x y = y * Int.fract (x / y) := by
  unfold fmod Int.fract
  rw [mul_sub, mul_div_cancel₀ x hy]

theorem fmod_nonneg_of_pos (x y : ℚ) (hy : 0 < y) : 0 ≤ fmod x y := by
  rw [fmod_eq_mul_fract x y (ne_of_gt hy)]
  exact mul_nonneg (le_of_lt hy) (Int.fract_nonneg _)

theorem fmod_lt_of_pos (x y : ℚ) (hy : 0 < y) : fmod x y < y := by
  rw [fmod_eq_mul_fract x y (ne_of_gt hy)]
  calc y * Int.fract (x / y) < y * 1 := by
        exact mul_lt_mul_of_pos_left (Int.fract_lt_one _) hy
    _ = y := mul_one y

/-- C2: the `wind_direction` transform is the registered calculator computing
`mod(r * 0.1 + 180, 360)` (scale, then offset, then modulo); its result lies
in `[0, 360)` for every raw value, and raw value 1800 maps to exactly 0. -/
theorem wind_direction_transform_range :
    value_calculators "wind_direction" = some wind_direction_calc ∧
    (∀ r : ℚ, wind_direction_calc r = fmod (r * 0.1 + 180) 360 ∧
      0 ≤ wind_direction_calc r ∧ wind_direction_calc r < 360) ∧
    wind_direction_calc 1800 = 0 := by
  refine ⟨rfl, fun r => ⟨rfl, fmod_nonneg_of_pos _ 360 (by norm_num),
    fmod_lt_of_pos _ 360 (by norm_num)⟩, ?_⟩
  have h : (1800 : ℚ) * 0.1 + 180 = 360 := by norm_num
  rw [wind_direction_calc, h, fmod]
  norm_num

/-- C7: for every data type other than `wind_direction`, the registered
calculator is the pure scale `r * 0.1`, applied elementwise with no offset,
wrap or clamping, preserving length and order. -/
theorem scale_only_transform (dt : String)
    (h : dt = "wind_speed" ∨ dt = "wind_gust" ∨ dt = "ice_mass" ∨ dt = "ice_thickness")
    (xs : List ℚ) :
    value_calculators dt = some scale_calc ∧
    xs.map scale_calc = xs.map (fun r => r * 0.1) ∧
    (xs.map scale_calc).length = xs.length ∧
    ∀ i (hi : i < xs.length), (xs.map scale_calc).getD i 0 = xs.getD i 0 * 0.1 := by
  refine ⟨?_, rfl, List.length_map _ _, ?_⟩
  · rcases h with h | h | h | h <;> subst h <;> rfl
  · intro i hi
    rw [List.getD_eq_getElem _ _ (by simpa using hi), List.getD_eq_getElem _ _ hi,
      List.getElem_map]
    rfl

/-- Witness for C7 at `wind_speed` on `[1, 25, 3]`. -/
theorem scale_only_transform_witness :
    ("wind_speed" = "wind_speed" ∨ "wind_speed" = "wind_gust" ∨
      "wind_speed" = "ice_mass" ∨ "wind_speed" = "ice_thickness") ∧
    (value_calculators "wind_speed" = some scale_calc ∧
      [(1 : ℚ), 25, 3].map scale_calc = [(1 : ℚ), 25, 3].map (fun r => r * 0.1) ∧
      ([(1 : ℚ), 25, 3].map scale_calc).length = [(1 : ℚ), 25, 3].length ∧
      ∀ i (hi : i < [(1 : ℚ), 25, 3].length),
        ([(1 : ℚ), 25, 3].map scale_calc).getD i 0 = [(1 : ℚ), 25, 3].getD i 0 * 0.1) :=
  ⟨Or.inl rfl, scale_only_transform "wind_speed" (Or.inl rfl) [1, 25, 3]⟩

theorem collectValid_eq (l : List Pole) :
    collectValid l = (l.filter poleValid, (l.filter poleValid).map poleCoord) := by
  induction l with
  | nil => rfl
  | cons p rest ih =>
    simp only [collectValid, ih, List.filter_cons]
    by_cases h : poleValid p = true <;> simp [h]

theorem get_valid_fst_eq (poles : List Pole) :
    (get_valid_coordinates poles).1 =
      (poles.mergeSort (fun a b => decide (a.serial ≤ b.serial))).filter poleValid := by
  rw [get_valid_coordinates, collectValid_eq]

theorem get_valid_snd_eq (poles : List Pole) :
    (get_valid_coordinates poles).2 = (get_valid_coordinates poles).1.map poleCoord := by
  rw [get_valid_coordinates, collectValid_eq]

theorem serial_le_trans : ∀ a b c : Pole, decide (a.serial ≤ b.serial) = true →
    decide (b.serial ≤ c.serial) = true → decide (a.serial ≤ c.serial) = true := by
  intro a b c hab hbc
  simp only [decide_eq_true_eq] at hab hbc ⊢
  exact Nat.le_trans hab hbc

theorem serial_le_total : ∀ a b : Pole,
    (decide (a.serial ≤ b.serial) || decide (b.serial ≤ a.serial)) = true := by
  intro a b
  simpa using Nat.le_total a.serial b.serial

theorem get_valid_mem (poles : List Pole) (p : Pole) :
    p ∈ (get_valid_coordinates poles).1 ↔ p ∈ poles ∧ poleValid p = true := by
  rw [get_valid_fst_eq, List.mem_filter,
    (List.mergeSort_perm poles (fun a b => decide (a.serial ≤ b.serial))).mem_iff]

theorem get_valid_sorted (poles : List Pole) :
    (get_valid_coordinates poles).1.Pairwise (fun a b => a.serial ≤ b.serial) := by
  rw [get_valid_fst_eq]
  exact ((List.sorted_mergeSort serial_le_trans serial_le_total poles).filter
    poleValid).imp (fun h => of_decide_eq_true h)

theorem get_valid_serial_ne (poles : List Pole)
    (hser : poles.Pairwise (fun a b => a.serial ≠ b.serial)) :
    (get_valid_coordinates poles).1.Pairwise (fun a b => a.serial ≠ b.serial) := by
  rw [get_valid_fst_eq]
  exact (((List.mergeSort_perm poles _).pairwise_iff (fun h => h.symm)).mpr hser).filter _

theorem get_valid_sorted_lt (poles : List Pole)
    (hser : poles.Pairwise (fun a b => a.serial ≠ b.serial)) :
    (get_valid_coordinates poles).1.Pairwise (fun a b => a.serial < b.serial) :=
  ((get_valid_sorted poles).and (get_valid_serial_ne poles hser)).imp
    (fun h => lt_of_le_of_ne h.1 h.2)

theorem get_valid_perm_invariant (poles poles' : List Pole) (hperm : poles'.Perm poles)
    (hser : poles.Pairwise (fun a b => a.serial ≠ b.serial)) :
    get_valid_coordinates poles' = get_valid_coordinates poles := by
  have hser' : poles'.Pairwise (fun a b => a.serial ≠ b.serial) :=
    (hperm.pairwise_iff (fun h => h.symm)).mpr hser
  have hp : (get_valid_coordinates poles').1.Perm (get_valid_coordinates poles).1 := by
    rw [get_valid_fst_eq, get_valid_fst_eq]
    exact ((List.mergeSort_perm poles' _).trans (hperm.trans
      (List.mergeSort_perm poles _).symm)).filter poleValid
  haveI : IsAntisymm Pole (fun a b => a.serial < b.serial) :=
    ⟨fun a b h1 h2 => (Nat.lt_asymm h1 h2).elim⟩
  have hfst : (get_valid_coordinates poles').1 = (get_valid_coordinates poles).1 :=
    List.eq_of_perm_of_sorted hp (get_valid_sorted_lt poles' hser')
      (get_valid_sorted_lt poles hser)
  have hsnd : (get_valid_coordinates poles').2 = (get_valid_coordinates poles).2 := by
    rw [get_valid_snd_eq, get_valid_snd_eq, hfst]
  exact Prod.ext hfst hsnd

theorem poleValid_iff (p : Pole) : poleValid p = true ↔ ∃ la lo : ℚ,
    parseFloat p.lat = some (.fin la) ∧ parseFloat p.lon = some (.fin lo) ∧
    -90 ≤ la ∧ la ≤ 90 ∧ -180 ≤ lo ∧ lo ≤ 180 := by
  rcases p with ⟨s, plat, plon⟩
  cases plat <;> cases plon <;>
    simp [poleValid, parseFloat, coordCheck, isnan, pyLe, and_assoc]

/-- C4: coordinate validation keeps exactly the towers whose latitude and
longitude both parse as finite numbers within `[-90, 90]` and `[-180, 180]`
(null, NaN, unparseable, infinite and out-of-range values are dropped), and
the returned towers are in serial-sorted order, independent of the input
order whenever serials are distinct. -/
theorem coordinate_validation_correct (poles poles' : List Pole)
    (hperm : poles'.Perm poles)
    (hser : poles.Pairwise (fun a b => a.serial ≠ b.serial)) :
    (∀ p, p ∈ (get_valid_coordinates poles).1 ↔ (p ∈ poles ∧ poleValid p = true)) ∧
    (∀ p : Pole, poleValid p = true ↔ ∃ la lo : ℚ,
      parseFloat p.lat = some (.fin la) ∧ parseFloat p.lon = some (.fin lo) ∧
      -90 ≤ la ∧ la ≤ 90 ∧ -180 ≤ lo ∧ lo ≤ 180) ∧
    (get_valid_coordinates poles).1.Pairwise (fun a b => a.serial ≤ b.serial) ∧
    get_valid_coordinates poles' = get_valid_coordinates poles :=
  ⟨get_valid_mem poles, poleValid_iff, get_valid_sorted poles,
    get_valid_perm_invariant poles poles' hperm hser⟩

/-- Witness for C4 on Scenario A's registry in two fetch orders. -/
theorem coordinate_validation_correct_witness :
    ([pole3, pole1, pole2] : List Pole).Perm [pole1, pole2, pole3] ∧
    ([pole1, pole2, pole3] : List Pole).Pairwise (fun a b => a.serial ≠ b.serial) ∧
    ((∀ p, p ∈ (get_valid_coordinates [pole1, pole2, pole3]).1 ↔
        (p ∈ [pole1, pole2, pole3] ∧ poleValid p = true)) ∧
      (∀ p : Pole, poleValid p = true ↔ ∃ la lo : ℚ,
        parseFloat p.lat = some (.fin la) ∧ parseFloat p.lon = some (.fin lo) ∧
        -90 ≤ la ∧ la ≤ 90 ∧ -180 ≤ lo ∧ lo ≤ 180) ∧
      (get_valid_coordinates [pole1, pole2, pole3]).1.Pairwise
        (fun a b => a.serial ≤ b.serial) ∧
      get_valid_coordinates [pole3, pole1, pole2] =
        get_valid_coordinates [pole1, pole2, pole3]) :=
  ⟨by decide, by decide,
    coordinate_validation_correct [pole1, pole2, pole3] [pole3, pole1, pole2]
      (by decide) (by decide)⟩

theorem batch_foldl_inv (p : String) (records : List Record)
    (st : List (List Record) × List Record)
    (h1 : ∀ f ∈ st.1, f.length = 100000) (h2 : st.2.length < 100000) :
    (∀ f ∈ (records.foldl (batchStep (some p)) st).1, f.length = 100000) ∧
    (records.foldl (batchStep (some p)) st).2.length < 100000 ∧
    100000 * (records.foldl (batchStep (some p)) st).1.length +
        (records.foldl (batchStep (some p)) st).2.length =
      100000 * st.1.length + st.2.length + records.length := by
  induction records generalizing st with
  | nil => exact ⟨h1, h2, by simp⟩
  | cons r rest ih =>
    rw [List.foldl_cons]
    by_cases hb : 100000 ≤ (st.2 ++ [r]).length
    · have hstep : batchStep (some p) st r = (st.1 ++ [st.2 ++ [r]], []) := by
        simp only [batchStep, hb, if_pos]
      have hlen : (st.2 ++ [r]).length = 100000 := by
        simp only [List.length_append, List.length_singleton] at hb ⊢
        omega
      obtain ⟨i1, i2, i3⟩ := ih (st.1 ++ [st.2 ++ [r]], [])
        (by
          intro f hf
          rcases List.mem_append.mp hf with hf | hf
          · exact h1 f hf
          · rw [List.mem_singleton.mp hf]; exact hlen)
        (by simp)
      refine ⟨by rwa [hstep], by rwa [hstep], ?_⟩
      rw [hstep, i3]
      dsimp only
      simp only [List.length_append, List.length_singleton] at hlen
      simp only [List.length_append, List.length_singleton, List.length_nil, List.length_cons]
      omega
    · have hstep : batchStep (some p) st r = (st.1, st.2 ++ [r]) := by
        simp only [batchStep, hb, if_neg, not_false_iff]
      obtain ⟨i1, i2, i3⟩ := ih (st.1, st.2 ++ [r]) h1
        (by
          simp only [List.length_append, List.length_singleton] at hb ⊢
          omega)
      refine ⟨by rwa [hstep], by rwa [hstep], ?_⟩
      rw [hstep, i3]
      dsimp only
      simp only [List.length_append, List.length_singleton] at hb
      simp only [List.length_append, List.length_singleton, List.length_nil, List.length_cons]
      omega

theorem midFlushState_some (p : String) (records : List Record) :
    (∀ f ∈ (midFlushState (some p) records).1, f.length = 100000) ∧
    (midFlushState (some p) records).2.length < 100000 ∧
    100000 * (midFlushState (some p) records).1.length +
        (midFlushState (some p) records).2.length = records.length := by
  obtain ⟨i1, i2, i3⟩ := batch_foldl_inv p records ([], []) (by simp) (by simp)
  refine ⟨i1, i2, ?_⟩
  simpa using i3

theorem midFlushState_none (records : List Record)
    (st : List (List Record) × List Record) :
    records.foldl (batchStep none) st = (st.1, st.2 ++ records) := by
  induction records generalizing st with
  | nil => simp
  | cons r rest ih =>
    rw [List.foldl_cons]
    have hstep : batchStep none st r = (st.1, st.2 ++ [r]) := by
      by_cases hb : 100000 ≤ (st.2 ++ [r]).length <;> simp [batchStep, hb]
    rw [hstep, ih]
    simp

/-- C10: with a registered ingestion procedure, every flush triggered before
end of file writes a batch of exactly 100,000 records; the size check runs
after each single-record append, so the accumulating batch never exceeds
100,000 records before being written and reset (after the loop it is always
strictly below the bound). -/
theorem midfile_flushes_exact (p : String) (records : List Record) :
    (∀ f ∈ (midFlushState (some p) records).1, f.length = 100000) ∧
    (midFlushState (some p) records).2.length < 100000 :=
  ⟨(midFlushState_some p records).1, (midFlushState_some p records).2.1⟩

/-- C5 (amended): with a registered procedure and `100000 + k` total records,
`0 < k < 100000`, at least one flush fires before end of file, every mid-file
flush holds exactly 100,000 records, the end-of-file flush is appended to the
mid-file ones, and it holds exactly the `k`-record remainder. -/
theorem batch_flush_remainder (p : String) (records : List Record) (k : ℕ)
    (hlen : records.length = 100000 + k) (h0 : 0 < k) (hk : k < 100000) :
    1 ≤ (midFlushState (some p) records).1.length ∧
    (∀ f ∈ (midFlushState (some p) records).1, f.length = 100000) ∧
    allFlushes (some p) records =
      (midFlushState (some p) records).1 ++ [(midFlushState (some p) records).2] ∧
    (midFlushState (some p) records).2.length = k := by
  obtain ⟨i1, i2, i3⟩ := midFlushState_some p records
  rw [hlen] at i3
  have hbk : (midFlushState (some p) records).2.length = k := by omega
  have hn : 1 ≤ (midFlushState (some p) records).1.length := by omega
  have hne : (midFlushState (some p) records).2 ≠ [] := by
    intro h
    rw [h] at hbk
    simp at hbk
    omega
  refine ⟨hn, i1, ?_, hbk⟩
  simp [allFlushes, endOfFileResult, hne]

/-- The mid-file batching never writes nor resets when no procedure is
registered: the state is the untouched accumulating batch. -/
theorem midFlushState_none_eq (records : List Record) :
    midFlushState none records = ([], records) := by
  rw [midFlushState, midFlushState_none]
  rfl

/-- Witness for C5 on 100,001 identical records with `k = 1`. -/
theorem batch_flush_remainder_witness :
    (List.replicate 100001 r0).length = 100000 + 1 ∧ 0 < 1 ∧ 1 < 100000 ∧
    (1 ≤ (midFlushState (some "p") (List.replicate 100001 r0)).1.length ∧
      (∀ f ∈ (midFlushState (some "p") (List.replicate 100001 r0)).1,
        f.length = 100000) ∧
      allFlushes (some "p") (List.replicate 100001 r0) =
        (midFlushState (some "p") (List.replicate 100001 r0)).1 ++
          [(midFlushState (some "p") (List.replicate 100001 r0)).2] ∧
      (midFlushState (some "p") (List.replicate 100001 r0)).2.length = 1) :=
  ⟨by rw [List.length_replicate], Nat.one_pos, by norm_num,
    batch_flush_remainder "p" (List.replicate 100001 r0) 1
      (by rw [List.length_replicate]) Nat.one_pos (by norm_num)⟩

/-- C5 is false exactly as stated: the claim quantifies over every `k > 0`,
but at `k = 100001` (200,001 total records) the final flush holds 1 record,
not the claimed `k`-record remainder — the flush sizes are
`[100000, 100000, 1]`. -/
theorem batch_flush_remainder_cex :
    (List.replicate 200001 r0).length = 100000 + 100001 ∧ 0 < 100001 ∧
    (allFlushes (some "p") (List.replicate 200001 r0)).map List.length =
      [100000, 100000, 1] ∧ (1 : ℕ) ≠ 100001 := by
  obtain ⟨i1, i2, i3⟩ := midFlushState_some "p" (List.replicate 200001 r0)
  rw [List.length_replicate] at i3
  have hb : (midFlushState (some "p") (List.replicate 200001 r0)).2.length = 1 := by omega
  have hn : (midFlushState (some "p") (List.replicate 200001 r0)).1.length = 2 := by omega
  have hne : (midFlushState (some "p") (List.replicate 200001 r0)).2 ≠ [] := by
    intro h
    rw [h] at hb
    exact absurd hb (by norm_num)
  have hmap : (midFlushState (some "p") (List.replicate 200001 r0)).1.map List.length =
      [100000, 100000] := by
    have h2 : (midFlushState (some "p") (List.replicate 200001 r0)).1.map List.length =
        List.replicate 2 100000 := by
      rw [List.eq_replicate_iff]
      refine ⟨by rw [List.length_map, hn], ?_⟩
      intro b hb'
      obtain ⟨f, hf, rfl⟩ := List.mem_map.mp hb'
      exact i1 f hf
    rw [h2]
    rfl
  have hall : allFlushes (some "p") (List.replicate 200001 r0) =
      (midFlushState (some "p") (List.replicate 200001 r0)).1 ++
        [(midFlushState (some "p") (List.replicate 200001 r0)).2] := by
    rw [allFlushes, endOfFileResult, if_neg (fun hh => hne (List.isEmpty_iff.mp hh))]
  refine ⟨by rw [List.length_replicate], by norm_num, ?_, by norm_num⟩
  rw [hall, List.map_append, hmap, List.map_cons, List.map_nil, hb]
  rfl

/-- C8 (amended): when no ingestion procedure is registered, no batch is ever
written: mid-file size checks neither write, nor warn, nor reset the batch
(the records keep accumulating); the single warning fires only at end of file,
where the non-empty batch is dropped without a write and without an error. -/
theorem no_procedure_behaviour (records : List Record) (h : records ≠ []) :
    midFlushState none records = ([], records) ∧
    allFlushes none records = [] ∧ procWarning none records = true := by
  refine ⟨midFlushState_none_eq records, ?_, ?_⟩ <;>
    simp [allFlushes, procWarning, endOfFileResult, midFlushState_none_eq records, h]

/-- Witness for C8 on a single record. -/
theorem no_procedure_behaviour_witness :
    ([r0] : List Record) ≠ [] ∧
    (midFlushState none [r0] = ([], [r0]) ∧
      allFlushes none [r0] = [] ∧ procWarning none [r0] = true) :=
  ⟨by simp, no_procedure_behaviour [r0] (by simp)⟩

/-- C8 is false as stated for mid-file flush triggers: with no registered
procedure and 100,001 appended records the 100,000 bound is crossed mid-file,
yet the batch is never dropped — after the loop it still holds all 100,001
records, and no warning has fired during the loop. -/
theorem no_procedure_cex :
    midFlushState none (List.replicate 100001 r0) = ([], List.replicate 100001 r0) ∧
    100000 < (List.replicate 100001 r0).length := by
  refine ⟨midFlushState_none_eq _, ?_⟩
  rw [List.length_replicate]
  norm_num

theorem flatMap_range_length {α : Type} (g : ℕ → List α) (n m : ℕ)
    (hg : ∀ j, (g j).length = n) :
    ((List.range m).flatMap g).length = m * n := by
  induction m with
  | zero => simp
  | succ m ih =>
    rw [List.range_succ, List.flatMap_append, List.length_append, ih]
    simp [hg, Nat.succ_mul]

theorem flatMap_range_get {α : Type} (g : ℕ → List α) (n b i : ℕ)
    (hg : ∀ j, (g j).length = n) (hi : i < n) :
    ∀ (m : ℕ), b < m → ∀ (h : b * n + i < ((List.range m).flatMap g).length),
      ((List.range m).flatMap g).get ⟨b * n + i, h⟩ =
        (g b).get ⟨i, by rw [hg]; exact hi⟩ := by
  intro m
  induction m with
  | zero => intro hb; omega
  | succ m ih =>
    intro hb h
    simp only [List.range_succ, List.flatMap_append, List.get_eq_getElem] at h ⊢
    by_cases hbm : b < m
    · have hlt : b * n + i < ((List.range m).flatMap g).length := by
        rw [flatMap_range_length g n m hg]
        calc b * n + i < b * n + n := Nat.add_lt_add_left hi _
          _ = (b + 1) * n := (Nat.succ_mul b n).symm
          _ ≤ m * n := Nat.mul_le_mul_right n hbm
      rw [List.getElem_append_left hlt]
      have hres := ih hbm hlt
      rw [List.get_eq_getElem] at hres
      exact hres
    · have hbm' : b = m := by omega
      subst hbm'
      have hlen : ((List.range b).flatMap g).length = b * n := flatMap_range_length g n b hg
      rw [List.getElem_append_right (by rw [hlen]; exact Nat.le_add_right _ _)]
      simp only [hlen, Nat.add_sub_cancel_left, List.flatMap_cons, List.flatMap_nil,
        List.append_nil]

theorem bandRecords_length (calcf : ℚ → ℚ) (fn : String) (src : Raster)
    (vp : List Pole) (vc : List (PyFloat × PyFloat)) (hlen : vp.length = vc.length)
    (j : ℕ) : (bandRecords calcf fn src vp vc j).length = vp.length := by
  simp [bandRecords, hlen]

theorem bandRecords_get (calcf : ℚ → ℚ) (fn : String) (src : Raster)
    (vp : List Pole) (vc : List (PyFloat × PyFloat)) (hlen : vp.length = vc.length)
    (j i : ℕ) (hi : i < vp.length)
    (h : i < (bandRecords calcf fn src vp vc j).length) :
    (bandRecords calcf fn src vp vc j).get ⟨i, h⟩ =
      { tower_serial := (vp.get ⟨i, hi⟩).serial, file_name := fn, band := j + 1,
        band_time := src.descriptions.getD j "",
        value := calcf (src.pix j (src.index (vc.get ⟨i, hlen ▸ hi⟩))) } := by
  simp [bandRecords, List.get_eq_getElem, List.getElem_map, List.getElem_zip]

theorem bandRecords_band (calcf : ℚ → ℚ) (fn : String) (src : Raster)
    (vp : List Pole) (vc : List (PyFloat × PyFloat)) (j : ℕ) (r : Record)
    (hr : r ∈ bandRecords calcf fn src vp vc j) : r.band = j + 1 := by
  simp only [bandRecords, List.mem_map] at hr
  obtain ⟨pv, hpv, rfl⟩ := hr
  rfl

/-- C9: within a file, records are appended in tower order within each band
and bands in ascending 1-based order: the record at flat position
`b * n + i` (band index `b`, slot `i`, `n` valid towers) carries the serial
of the `i`-th valid tower and the transformed value sampled at that tower's
resolved pixel. -/
theorem record_order_preserved (calcf : ℚ → ℚ) (fn : String) (src : Raster)
    (vp : List Pole) (vc : List (PyFloat × PyFloat)) (hlen : vp.length = vc.length)
    (b i : ℕ) (hb : b < band_count src) (hi : i < vp.length) :
    ∃ h : b * vp.length + i < (emittedRecords calcf fn src vp vc).length,
      (emittedRecords calcf fn src vp vc).get ⟨b * vp.length + i, h⟩ =
        { tower_serial := (vp.get ⟨i, hi⟩).serial, file_name := fn, band := b + 1,
          band_time := src.descriptions.getD b "",
          value := calcf (src.pix b (src.index (vc.get ⟨i, hlen ▸ hi⟩))) } := by
  have hg : ∀ j, (bandRecords calcf fn src vp vc j).length = vp.length :=
    fun j => bandRecords_length calcf fn src vp vc hlen j
  have hlt : b * vp.length + i < (emittedRecords calcf fn src vp vc).length := by
    rw [emittedRecords, flatMap_range_length _ _ _ hg]
    calc b * vp.length + i < b * vp.length + vp.length := Nat.add_lt_add_left hi _
      _ = (b + 1) * vp.length := (Nat.succ_mul b vp.length).symm
      _ ≤ band_count src * vp.length := Nat.mul_le_mul_right vp.length hb
  refine ⟨hlt, ?_⟩
  have hflat := flatMap_range_get (bandRecords calcf fn src vp vc) vp.length b i hg hi
    (band_count src) hb hlt
  exact hflat.trans (bandRecords_get calcf fn src vp vc hlen b i hi _)

/-- Witness for C9: band index 1, slot 1 of a two-tower, eight-band file. -/
theorem record_order_preserved_witness :
    ([pole1, pole2] : List Pole).length = ([(.fin 29, .fin 40), (.fin 10, .fin 95)] :
      List (PyFloat × PyFloat)).length ∧
    1 < band_count src8 ∧ 1 < ([pole1, pole2] : List Pole).length ∧
    ∃ h : 1 * ([pole1, pole2] : List Pole).length + 1 <
        (emittedRecords scale_calc "f" src8 [pole1, pole2]
          [(.fin 29, .fin 40), (.fin 10, .fin 95)]).length,
      (emittedRecords scale_calc "f" src8 [pole1, pole2]
          [(.fin 29, .fin 40), (.fin 10, .fin 95)]).get
          ⟨1 * ([pole1, pole2] : List Pole).length + 1, h⟩ =
        { tower_serial := (([pole1, pole2] : List Pole).get ⟨1, by norm_num⟩).serial,
          file_name := "f", band := 1 + 1,
          band_time := src8.descriptions.getD 1 "",
          value := scale_calc (src8.pix 1 (src8.index
            (([(.fin 29, .fin 40), (.fin 10, .fin 95)] :
              List (PyFloat × PyFloat)).get ⟨1, by norm_num⟩))) } :=
  ⟨rfl, by norm_num [band_count, src8], by norm_num,
    record_order_preserved scale_calc "f" src8 [pole1, pole2]
      [(.fin 29, .fin 40), (.fin 10, .fin 95)] rfl 1 1
      (by norm_num [band_count, src8]) (by norm_num)⟩

/-- C1 (amended): the number of bands processed is `min(declaredBandCount, 48)`
— the cap in the code is 48, not the 6 its comment and the spec state: every
emitted record has a 1-based band index between 1 and `min(count, 48)`, and
(with at least one valid tower) a record for band `b` is emitted exactly when
`1 ≤ b ≤ min(count, 48)`. -/
theorem band_cap_is_48 (calcf : ℚ → ℚ) (fn : String) (src : Raster)
    (vp : List Pole) (vc : List (PyFloat × PyFloat)) (hlen : vp.length = vc.length)
    (hne : vp ≠ []) :
    (∀ r ∈ emittedRecords calcf fn src vp vc, 1 ≤ r.band ∧ r.band ≤ min src.count 48) ∧
    (∀ b : ℕ, (∃ r ∈ emittedRecords calcf fn src vp vc, r.band = b) ↔
      (1 ≤ b ∧ b ≤ min src.count 48)) := by
  have hmem : ∀ r : Record, r ∈ emittedRecords calcf fn src vp vc ↔
      ∃ j, j ∈ List.range (band_count src) ∧ r ∈ bandRecords calcf fn src vp vc j := by
    intro r
    rw [emittedRecords, List.mem_flatMap]
  constructor
  · intro r hr
    obtain ⟨j, hj, hrj⟩ := (hmem r).mp hr
    rw [List.mem_range] at hj
    have hband := bandRecords_band calcf fn src vp vc j r hrj
    rw [hband]
    exact ⟨Nat.le_add_left 1 j, by rw [band_count] at hj; omega⟩
  · intro b
    constructor
    · intro ⟨r, hr, hband⟩
      obtain ⟨j, hj, hrj⟩ := (hmem r).mp hr
      rw [List.mem_range] at hj
      have := bandRecords_band calcf fn src vp vc j r hrj
      rw [hband] at this
      rw [band_count] at hj
      omega
    · intro ⟨hb1, hb2⟩
      have hj : b - 1 < band_count src := by rw [band_count]; omega
      have hnz : 0 < vp.length := List.length_pos.mpr hne
      have hlenj : 0 < (bandRecords calcf fn src vp vc (b - 1)).length := by
        rw [bandRecords_length calcf fn src vp vc hlen]
        exact hnz
      refine ⟨(bandRecords calcf fn src vp vc (b - 1)).get ⟨0, hlenj⟩, ?_, ?_⟩
      · exact (hmem _).mpr ⟨b - 1, List.mem_range.mpr hj, List.get_mem _ 0 hlenj⟩
      · have := bandRecords_band calcf fn src vp vc (b - 1) _ (List.get_mem _ 0 hlenj)
        rw [this]
        omega

/-- Witness for C1 on the eight-band raster with one tower. -/
theorem band_cap_is_48_witness :
    ([pole1] : List Pole).length =
      ([((.fin 29 : PyFloat), (.fin 40 : PyFloat))] : List (PyFloat × PyFloat)).length ∧
    ([pole1] : List Pole) ≠ [] ∧
    ((∀ r ∈ emittedRecords scale_calc "f" src8 [pole1] [(.fin 29, .fin 40)],
        1 ≤ r.band ∧ r.band ≤ min src8.count 48) ∧
      (∀ b : ℕ, (∃ r ∈ emittedRecords scale_calc "f" src8 [pole1] [(.fin 29, .fin 40)],
        r.band = b) ↔ (1 ≤ b ∧ b ≤ min src8.count 48))) :=
  ⟨rfl, by simp,
    band_cap_is_48 scale_calc "f" src8 [pole1] [(.fin 29, .fin 40)] rfl (by simp)⟩

/-- C1 is false as stated: a raster declaring 8 bands with one valid tower
emits records for all eight bands — band 7 (greater than the claimed cap of 6)
appears in the emitted stream, because the code caps at 48, not 6. -/
theorem band_cap_is_48_cex :
    (emittedRecords scale_calc "f" src8 [pole1] [(.fin 29, .fin 40)]).map Record.band =
      [1, 2, 3, 4, 5, 6, 7, 8] ∧
    (7 : ℕ) ∈ (emittedRecords scale_calc "f" src8 [pole1]
      [(.fin 29, .fin 40)]).map Record.band ∧ ¬ (7 : ℕ) ≤ 6 := by
  refine ⟨?_, ?_, by norm_num⟩ <;> decide

theorem process_coordError_aux (parseTime : String → Option String) (ing : ℕ → Bool)
    (data_type file_name : String) (src : Raster) (towers : List Pole)
    (d0 : String) (rest : List String) (hdesc : src.descriptions = d0 :: rest)
    (hparse : ∃ t, parseTime d0 = some t)
    (hvalid : (get_valid_coordinates towers).1 = []) :
    process_tiff_file parseTime ing data_type file_name src towers = .coordError := by
  obtain ⟨t, ht⟩ := hparse
  have hvc : (get_valid_coordinates towers).2 = [] := by
    rw [get_valid_snd_eq, hvalid]
    rfl
  simp [process_tiff_file, hdesc, ht, hvc]

theorem no_valid_pole3 : (get_valid_coordinates [pole3]).1 = [] := by
  rw [get_valid_fst_eq]
  simp [List.mergeSort, poleValid, pole3, parseFloat]

/-- C6 (amended): with zero valid towers a file emits zero records and makes
zero ingestion calls, but it is not logged as processed-with-no-data: the
`rows, cols = zip(*[])` unpacking raises, lines 125–127 catch it, log a
coordinate conversion error and return False (`coordError`). -/
theorem zero_valid_towers (parseTime : String → Option String) (ing : ℕ → Bool)
    (data_type file_name : String) (src : Raster) (towers : List Pole)
    (d0 : String) (rest : List String) (hdesc : src.descriptions = d0 :: rest)
    (hparse : ∃ t, parseTime d0 = some t)
    (hvalid : (get_valid_coordinates towers).1 = []) :
    process_tiff_file parseTime ing data_type file_name src towers = .coordError :=
  process_coordError_aux parseTime ing data_type file_name src towers d0 rest hdesc
    hparse hvalid

/-- Witness for C6 on a registry holding only the null-latitude tower. -/
theorem zero_valid_towers_witness :
    src8.descriptions = "2020-01-01_00" :: [] ∧
    (∃ t, (fun _ : String => (some "t" : Option String)) "2020-01-01_00" = some t) ∧
    (get_valid_coordinates [pole3]).1 = [] ∧
    process_tiff_file (fun _ => some "t") (fun _ => true) "wind_speed" "f" src8 [pole3] =
      .coordError :=
  ⟨rfl, ⟨"t", rfl⟩, no_valid_pole3,
    zero_valid_towers (fun _ => some "t") (fun _ => true) "wind_speed" "f" src8 [pole3]
      "2020-01-01_00" [] rfl ⟨"t", rfl⟩ no_valid_pole3⟩

/-- C6 is false as stated: with zero valid towers the outcome is the logged
coordinate-conversion error returning False, not a processed-with-no-data
success. -/
theorem zero_valid_towers_cex :
    process_tiff_file (fun _ => some "t") (fun _ => true) "wind_speed" "f" src8 [pole3] =
      .coordError ∧
    ProcResult.coordError ≠ ProcResult.success [] false := by
  constructor
  · exact process_coordError_aux (fun _ => some "t") (fun _ => true) "wind_speed" "f"
      src8 [pole3] "2020-01-01_00" [] rfl ⟨"t", rfl⟩ no_valid_pole3
  · intro h
    cases h

theorem load_loop_cons_not_raised (step : String → ProcResult) (g : String)
    (l : List String) (h : ∀ cc, step g ≠ .raised cc) :
    load_loop step (g :: l) = (g, step g) :: load_loop step l := by
  cases hsg : step g with
  | raised cc => exact absurd hsg (h cc)
  | coordError => simp [load_loop, hsg]
  | success fl w => simp [load_loop, hsg]

theorem runCalls_fail_at (ing : ℕ → Bool) :
    ∀ (bs : List (List Record)) (s j : ℕ), j < bs.length →
    (∀ i, i < j → ing (s + i) = true) → ing (s + j) = false →
    runCalls ing s bs = (bs.take j, false) := by
  intro bs
  induction bs with
  | nil => intro s j hj _ _; simp at hj
  | cons b rest ih =>
    intro s j hj hbefore hfail
    cases j with
    | zero =>
      rw [Nat.add_zero] at hfail
      simp [runCalls, hfail]
    | succ j' =>
      have hs : ing s = true := by
        have := hbefore 0 (Nat.succ_pos j')
        rwa [Nat.add_zero] at this
      rw [runCalls, hs]
      have hrec : runCalls ing (s + 1) rest = (rest.take j', false) := by
        refine ih (s + 1) j' (by simpa using hj) ?_ ?_
        · intro i hi
          have := hbefore (i + 1) (by omega)
          rwa [show s + (i + 1) = s + 1 + i by omega] at this
        · have := hfail
          rwa [show s + (j' + 1) = s + 1 + j' by omega] at this
      rw [hrec]
      simp

/-- C3 (amended): an exception raised while processing file i is caught and
logged at the data-type level (`load_legacy_data` returns normally) and the
batches of file i committed before the failure persist in its recorded
outcome, but the remaining files of that data type are skipped rather than
processed — the loop ends at the first raising file. When the ingestion call
at index j fails, exactly the first j flushed batches stay committed. -/
theorem file_loop_stops_at_raise (step : String → ProcResult)
    (pre post : List String) (f : String) (c : List (List Record))
    (hpre : ∀ g ∈ pre, ∀ cc, step g ≠ .raised cc) (hf : step f = .raised c) :
    load_loop step (pre ++ f :: post) =
      pre.map (fun g => (g, step g)) ++ [(f, .raised c)] ∧
    (∀ (ing : ℕ → Bool) (bs : List (List Record)) (j : ℕ), j < bs.length →
      (∀ i, i < j → ing i = true) → ing j = false →
      runCalls ing 0 bs = (bs.take j, false)) := by
  constructor
  · induction pre with
    | nil => simp [load_loop, hf]
    | cons g rest ih =>
      have hg : ∀ cc, step g ≠ .raised cc := hpre g (by simp)
      have hrest : ∀ g' ∈ rest, ∀ cc, step g' ≠ .raised cc := by
        intro g' hg'
        exact hpre g' (by simp [hg'])
      rw [List.cons_append, load_loop_cons_not_raised step g _ hg, ih hrest]
      simp
  · intro ing bs j hj hbefore hfail
    refine runCalls_fail_at ing bs 0 j hj ?_ ?_
    · intro i hi
      rw [Nat.zero_add]
      exact hbefore i hi
    · rw [Nat.zero_add]
      exact hfail

/-- Witness for C3: files a, b, c in order, where b raises after committing
one batch. -/
theorem file_loop_stops_at_raise_witness :
    (∀ g ∈ ["a"], ∀ cc, stepB g ≠ .raised cc) ∧ stepB "b" = .raised [[r0]] ∧
    (load_loop stepB (["a"] ++ "b" :: ["c"]) =
      ["a"].map (fun g => (g, stepB g)) ++ [("b", .raised [[r0]])] ∧
    (∀ (ing : ℕ → Bool) (bs : List (List Record)) (j : ℕ), j < bs.length →
      (∀ i, i < j → ing i = true) → ing j = false →
      runCalls ing 0 bs = (bs.take j, false))) := by
  refine ⟨?_, by simp [stepB], file_loop_stops_at_raise stepB ["a"] ["c"] "b" [[r0]]
    ?_ (by simp [stepB])⟩ <;>
  · intro g hg cc h
    rw [List.mem_singleton] at hg
    subst hg
    simp [stepB] at h

/-- C3 is false as stated: with discovered files ["b", "a"] (sorted to
["a", "b"]) where "a" raises, the loop stops at "a" — "b" is never processed,
instead of the claimed advance to the next file. -/
theorem file_loop_stops_at_raise_cex :
    load_legacy_data stepA ["b", "a"] = [("a", ProcResult.raised [])] ∧
    ("b", stepA "b") ∉ load_legacy_data stepA ["b", "a"] := by
  have h : load_legacy_data stepA ["b", "a"] = [("a", ProcResult.raised [])] := by
    have hs : List.mergeSort ["b", "a"] (fun a b => decide (a ≤ b)) = ["a", "b"] := by
      simp [List.mergeSort, List.merge]
      decide
    rw [load_legacy_data, hs]
    simp [load_loop, stepA]
  refine ⟨h, ?_⟩
  rw [h]
  simp [stepA]
